import Mathlib

/-!
Verification of the beam-state / decoding engine of
`program_synthesis/models/modules/karel_trace.py`.

Tensors (numpy arrays and torch tensors) are modelled shallowly as a shape
together with row-major flat data, exactly the layout numpy/torch use; a
`view`/`reshape` changes only the shape, slicing and advanced indexing are
index arithmetic on the flat data.  Machine floats carried by the real
tensors are irrelevant to every claim checked here (all claims are about
shapes, row selection, copying and control flow), so entries are `Int`.
-/

/-- A dense tensor: shape plus row-major flat data, as in numpy/torch. -/
structure Tensor where
  shape : List Nat
  data : List Int
deriving DecidableEq, Repr

/-- Split a list into consecutive chunks of size `n` (last chunk may be
shorter); chunk layout of a `[k, n]`-shaped row-major tensor. -/
def chunkList (n : Nat) (l : List α) : List (List α) :=
  (List.range ((l.length + n - 1) / n)).map (fun i => (l.drop (i * n)).take n)

/-- The contiguous block of `inner` entries starting at block index `i`:
row `i` of a tensor whose trailing dimensions multiply to `inner`. -/
def chunkAt (data : List Int) (inner i : Nat) : List Int :=
  (data.drop (i * inner)).take inner

/-- `t[:k]` on the leading dimension (python slicing clamps). -/
def Tensor.take0 (t : Tensor) (k : Nat) : Tensor :=
  ⟨min k (t.shape.headD 0) :: t.shape.drop 1,
   t.data.take (k * (t.shape.drop 1).prod)⟩

/-- `t[:, :k]`: slice the second dimension. -/
def Tensor.take1 (t : Tensor) (k : Nat) : Tensor :=
  let d0 := t.shape.headD 0
  let d1 := (t.shape.drop 1).headD 0
  let rest := t.shape.drop 2
  let inner := rest.prod
  ⟨d0 :: min k d1 :: rest,
   ((chunkList (d1 * inner) t.data).map (List.take (k * inner))).flatten⟩

/-- `t.view(B, -1, *t.shape[1:])`: split the leading dimension `B*W`
into `B` and `W`; pure shape bookkeeping on the flat data. -/
def Tensor.view0split (t : Tensor) (B : Nat) : Tensor :=
  ⟨B :: t.shape.headD 0 / B :: t.shape.drop 1, t.data⟩

/-- `karel_modules.flatten(t, i)`: merge dimensions `i` and `i+1`
(a reshape, data unchanged). -/
def Tensor.mergeDims (t : Tensor) (i : Nat) : Tensor :=
  ⟨t.shape.take i ++ [t.shape.getD i 1 * t.shape.getD (i + 1) 1] ++ t.shape.drop (i + 2),
   t.data⟩

/-- `t.view_as(u)`. -/
def Tensor.view_as (t u : Tensor) : Tensor :=
  ⟨u.shape, t.data⟩

/-- `t[list(idx)]`: numpy/torch fancy indexing of the leading dimension by a
1-D index list; each selected row is copied in order. -/
def Tensor.indexRows (t : Tensor) (idx : List Nat) : Tensor :=
  let inner := (t.shape.drop 1).prod
  ⟨idx.length :: t.shape.drop 1, (idx.map (chunkAt t.data inner)).flatten⟩

/-- `t.reshape(B, -1, *rest)[tuple(indices)]` with `indices` a `2 x K` array:
numpy *pairwise* advanced indexing.  Column `j` selects the row at
`(i0[j], i1[j])` of the `[B, W, *rest]` view; the result has `K` rows, in
column order, each a copy.  Out-of-range indices raise, modelled as `none`. -/
def Tensor.select_pairs0 (t : Tensor) (B : Nat) (i0 i1 : List Nat) : Option Tensor :=
  let n := t.shape.headD 0
  let rest := t.shape.drop 1
  let W := n / B
  let inner := rest.prod
  if i0.length = i1.length ∧ (∀ j ∈ i0, j < B) ∧ (∀ j ∈ i1, j < W) then
    some ⟨i0.length :: rest,
      ((List.zip i0 i1).map (fun p => chunkAt t.data inner (p.1 * W + p.2))).flatten⟩
  else none

/-- `t.view(L, B, -1, *rest)[(slice(None),) + tuple(indices)]`: pairwise
advanced indexing of dimensions 1 and 2 under an untouched leading (layer)
dimension, as used for `h` and `c`.  Result shape `L x K x rest`. -/
def Tensor.select_pairs1 (t : Tensor) (B : Nat) (i0 i1 : List Nat) : Option Tensor :=
  let L := t.shape.headD 0
  let n := (t.shape.drop 1).headD 0
  let rest := t.shape.drop 2
  let W := n / B
  let inner := rest.prod
  if i0.length = i1.length ∧ (∀ j ∈ i0, j < B) ∧ (∀ j ∈ i1, j < W) then
    some ⟨L :: i0.length :: rest,
      ((chunkList (n * inner) t.data).map (fun layer =>
        ((List.zip i0 i1).map (fun p => chunkAt layer inner (p.1 * W + p.2))).flatten)).flatten⟩
  else none

/-- `t[idx]` where `idx` is a whole 2-D integer array (NOT a tuple): numpy
and torch index only the leading dimension, producing shape
`idx.length x idx[0].length x t.shape[1:]` — the element at `(r, j)` is the
entire slice `t[idx[r][j]]`.  This is what
`LatePoolingCodeDecoder.State.select_for_beams` actually invokes on
`context`, since it omits the `tuple(...)` conversion. -/
def Tensor.index2d (t : Tensor) (idx : List (List Nat)) : Option Tensor :=
  let d0 := t.shape.headD 0
  let rest := t.shape.drop 1
  let inner := rest.prod
  if ∀ r ∈ idx, ∀ j ∈ r, j < d0 then
    some ⟨idx.length :: (idx.headD []).length :: rest,
      (idx.map (fun r => (r.map (chunkAt t.data inner)).flatten)).flatten⟩
  else none

/-- `torch.zeros(*shape)`. -/
def Tensor.zeros (shape : List Nat) : Tensor :=
  ⟨shape, List.replicate shape.prod 0⟩

/-- `action_to_id` from karel_trace.py lines 16-24. -/
def action_to_id : List (String × Nat) :=
  [("<s>", 0), ("</s>", 1), ("move", 2), ("turnLeft", 3), ("turnRight", 4),
   ("putMarker", 5), ("pickMarker", 6)]

/-- `id_to_action` from karel_trace.py lines 25-33. -/
def id_to_action : List (Nat × String) :=
  [(0, "<s>"), (1, "</s>"), (2, "move"), (3, "turnLeft"), (4, "turnRight"),
   (5, "putMarker"), (6, "pickMarker")]

/-- `TraceDecoderState` (karel_trace.py line 36): per-beam world grids
(numpy array, leading dim `batch*beam`) and the two-layer LSTM state
(`h`, `c`, shape `[2, batch*beam, num_pairs, hidden]`). -/
structure TraceDecoderState where
  field : Tensor
  h : Tensor
  c : Tensor
deriving DecidableEq, Repr

/-- `TraceDecoderState.select_for_beams` (lines 39-57): the grids are
reshaped to `[B, W, ...]` and pairwise-indexed by `tuple(indices)`; `h` and
`c` are viewed as `[2, B, W, ...]` and pairwise-indexed under the layer
dimension. -/
def TraceDecoderState.select_for_beams (s : TraceDecoderState) (batch_size : Nat)
    (i0 i1 : List Nat) : Option TraceDecoderState := do
  let f ← s.field.select_pairs0 batch_size i0 i1
  let h ← s.h.select_pairs1 batch_size i0 i1
  let c ← s.c.select_pairs1 batch_size i0 i1
  return ⟨f, h, c⟩

/-- Attention-masked trace memory (`base.MaskedMemory`): the padded trace
memory tensor plus its attention mask.  `apply(fn)` maps `fn` over both. -/
structure MaskedMemory where
  memory : Tensor
  attn_mask : Tensor
deriving DecidableEq, Repr

/-- `LatePoolingCodeDecoder.State` (karel_trace.py lines 311-314):
`pairs_per_example` plus the optional attention context
(`[batch*beam, num_pairs, hidden]` or `None`) and the two-layer LSTM state
(`[2, batch*beam, num_pairs, hidden]`). -/
structure LatePoolingCodeDecoder.State where
  pairs_per_example : Nat
  context : Option Tensor
  h : Tensor
  c : Tensor
deriving DecidableEq, Repr

/-- `LatePoolingCodeDecoder.Memory` (lines 300-308): per-example `io`
embedding and padded trace memory, either possibly absent. -/
structure LatePoolingCodeDecoder.Memory where
  io : Option Tensor
  trace : Option MaskedMemory
deriving DecidableEq, Repr

/-- `LatePoolingCodeDecoder.State.select_for_beams` (lines 315-334).
`h` and `c` go through `tuple(indices.data.numpy())` exactly like
`TraceDecoderState`; the `context` line however indexes with the raw
`indices.data.numpy()` 2-D array (no `tuple(...)`), which numpy/torch
interpret as fancy indexing of the leading dimension only. -/
def LatePoolingCodeDecoder.State.select_for_beams (s : LatePoolingCodeDecoder.State)
    (batch_size : Nat) (i0 i1 : List Nat) : Option LatePoolingCodeDecoder.State := do
  let ctx ← match s.context with
    | none => pure none
    | some c => some <$> (c.view0split batch_size).index2d [i0, i1]
  let h ← s.h.select_pairs1 batch_size i0 i1
  let c ← s.c.select_pairs1 batch_size i0 i1
  return ⟨s.pairs_per_example, ctx, h, c⟩

/-- `LatePoolingCodeDecoder.State.truncate` (lines 336-339).  The source
evaluates `self.context[:k]` unconditionally; when `context` is `None`
(trace memory disabled) python raises `TypeError`, modelled as `none`. -/
def LatePoolingCodeDecoder.State.truncate (s : LatePoolingCodeDecoder.State)
    (k : Nat) : Option LatePoolingCodeDecoder.State :=
  match s.context with
  | none => none
  | some ctx =>
    some ⟨s.pairs_per_example, some (ctx.take0 k), s.h.take1 k, s.c.take1 k⟩

/-- `LatePoolingCodeDecoder.init_state` (lines 512-523): zero context of
shape `[batch, pairs, 512]` when trace memory is in use, otherwise `None`.
Modelled from the spec: `karel_modules.lstm_init` (not under src/) builds
zero `h`/`c` of shape `[2 layers, batch, pairs, 256 hidden]`, the shape the
source documents at lines 467-468. -/
def LatePoolingCodeDecoder.init_state (use_trace_memory : Bool)
    (batch_size pairs_per_example : Nat) : LatePoolingCodeDecoder.State :=
  ⟨pairs_per_example,
   if use_trace_memory then some (Tensor.zeros [batch_size, pairs_per_example, 512])
   else none,
   Tensor.zeros [2, batch_size, pairs_per_example, 256],
   Tensor.zeros [2, batch_size, pairs_per_example, 256]⟩

/-- Concatenation of tensors along their last (feature) dimension, the
`dim=1` / `dim=2` concatenations used by the decoders: corresponding rows
are concatenated. -/
def concatLastDim (ts : List Tensor) : Tensor :=
  match ts with
  | [] => ⟨[], []⟩
  | t0 :: _ =>
    let rowCount := t0.shape.dropLast.prod
    ⟨t0.shape.dropLast ++ [(ts.map (fun u => u.shape.getLastD 0)).sum],
     (ts.foldr (fun u acc => List.zipWith (· ++ ·) (chunkList (u.shape.getLastD 0) u.data) acc)
       (List.replicate rowCount [])).flatten⟩

/-- Modelled from the spec: `karel_modules.maybe_concat` (not under src/)
drops absent inputs, returns a single present input unchanged, and
concatenates several present inputs along the given (here always the last)
dimension; with no present input it yields `None` (spec 4.5 step 2,
"concatenate with grid features and/or conditioning, per configuration"). -/
def maybe_concat (ts : List (Option Tensor)) : Option Tensor :=
  match ts.filterMap id with
  | [] => none
  | [t] => some t
  | present => some (concatLastDim present)

/-- Elementwise max of two feature vectors. -/
def vecMax (a b : List Int) : List Int :=
  List.zipWith max a b

/-- Elementwise max of a non-empty group of rows (`Tensor.max(dim=1)` on one
group of the `pairs_per_example` axis). -/
def vecMaxGroup (g : List (List Int)) : List Int :=
  match g with
  | [] => []
  | r :: rs => rs.foldl vecMax r

/-- `t.view(-1, P, D).max(dim=1)[0]` for a `[M, D]` tensor `t`: rows are
grouped in consecutive blocks of `P` and reduced by elementwise max.
`P = 0` or `P` not dividing `M` makes the `view` (and the empty-axis `max`)
raise in torch, modelled as `none`. -/
def maxPoolRows (P : Nat) (t : Tensor) : Option Tensor :=
  if P = 0 ∨ ¬ (P ∣ t.shape.headD 0) then none
  else
    some ⟨[t.shape.headD 0 / P, t.shape.getLastD 0],
      ((chunkList P (chunkList (t.shape.getLastD 0) t.data)).map vecMaxGroup).flatten⟩

/-- Lines 499-503 of `compute_next_token_logits`: concatenate the new
attention context (when present) with the recurrent output along the
feature dimension, then max-reduce over the `pairs_per_example` axis. -/
def poolDecision (P : Nat) (new_context : Option Tensor) (dec_output : Tensor) :
    Option Tensor := do
  let emb_for_logits ← maybe_concat [new_context, some dec_output]
  maxPoolRows P emb_for_logits

/-- `LatePoolingCodeDecoder.compute_next_token_logits` (lines 464-510).
The LSTM, the attention module and the output projection are opaque
collaborators (spec 6), passed as functions: `lstm` consumes the flattened
decoder input and the dim-1-flattened `h`/`c` and yields the squeezed
output plus new `h`/`c`; `attend q m mask` yields the context vectors;
`out` is the final linear projection applied to the pooled rows. -/
def LatePoolingCodeDecoder.compute_next_token_logits
    (lstm : Tensor → Tensor → Tensor → Tensor × Tensor × Tensor)
    (attend : Tensor → Tensor → Tensor → Tensor)
    (out : Tensor → Tensor)
    (state : LatePoolingCodeDecoder.State) (memory : LatePoolingCodeDecoder.Memory)
    (last_token_emb : Tensor) :
    Option (LatePoolingCodeDecoder.State × Tensor) := do
  let P := state.pairs_per_example
  let dec_input ← maybe_concat [some last_token_emb, memory.io, state.context]
  let dec_input := dec_input.mergeDims 0
  let (dec_output, h1, c1) := lstm dec_input (state.h.mergeDims 1) (state.c.mergeDims 1)
  let new_h := h1.view_as state.h
  let new_c := c1.view_as state.c
  let new_context : Option Tensor :=
    match memory.trace with
    | none => none
    | some tm => some (attend dec_output (tm.memory.mergeDims 0) (tm.attn_mask.mergeDims 0))
  let pooled ← poolDecision P new_context dec_output
  let logits := out pooled
  return (⟨P,
    new_context.map (fun nc =>
      ⟨[nc.data.length / (P * nc.shape.getLastD 1), P, nc.shape.getLastD 1], nc.data⟩),
    new_h, new_c⟩, logits)

/-- `PackedSequencePlus` as used by `forward`: packed timestep-major data,
the per-timestep active batch sizes, and the original-to-sorted example
permutation. -/
structure PackedSequencePlus (α : Type) where
  data : List α
  batch_sizes : List Nat
  orig_to_sort : List Nat
deriving DecidableEq, Repr

/-- `LatePoolingCodeDecoder.prepare_memory` (lines 373-389), taking the
trace memory already in its padded `MaskedMemory` form.  Modelled from the
spec: the `mem.pad`/`get_attn_mask`/`view` steps producing that padded
4-D memory plus mask live in `prepare_spec`/`base` (not under src/),
spec 4.3 `slice_by_example`. -/
def LatePoolingCodeDecoder.prepare_memory (use_trace_memory : Bool)
    (io_embed : Option Tensor) (trace_memory : Option MaskedMemory) :
    LatePoolingCodeDecoder.Memory :=
  ⟨io_embed, if use_trace_memory then trace_memory else none⟩

/-- `[bs, D]` rows replicated into `[bs, P, D]`:
`dec_data_slice.unsqueeze(1).expand(-1, P, -1)` at lines 430-431. -/
def expandPairs (P : Nat) (t : Tensor) : Tensor :=
  let D := t.shape.getLastD 0
  ⟨[t.shape.headD 0, P, D],
   ((chunkList D t.data).map (fun r => (List.replicate P r).flatten)).flatten⟩

/-- `torch.cat(logits, dim=0)` at line 449. -/
def concatRows (ts : List Tensor) : Tensor :=
  ⟨(ts.map (fun t => t.shape.headD 0)).sum :: (ts.headD ⟨[], []⟩).shape.drop 1,
   (ts.map Tensor.data).flatten⟩

/-- The timestep loop of `LatePoolingCodeDecoder.forward` (lines 422-447):
walk `batch_sizes` in packed order; when the active batch shrinks, re-slice
the memory from the full (sorted) memory and truncate the state, then run
`compute_next_token_logits` on the current slice, collecting per-timestep
logits. -/
def LatePoolingCodeDecoder.forwardSteps
    (lstm : Tensor → Tensor → Tensor → Tensor × Tensor × Tensor)
    (attend : Tensor → Tensor → Tensor → Tensor)
    (out : Tensor → Tensor)
    (P : Nat) (embedded : List (List Int))
    (io_full : Option Tensor) (trace_full : Option MaskedMemory) :
    List Nat → Nat → Nat → LatePoolingCodeDecoder.State →
    LatePoolingCodeDecoder.Memory → List Tensor → Option (List Tensor)
  | [], _, _, _, _, acc => some acc.reverse
  | bs :: rest, offset, last_bs, state, memory, acc => do
    let rows := (embedded.drop offset).take bs
    let D := (rows.headD []).length
    let dec_data_slice := expandPairs P ⟨[bs, D], rows.flatten⟩
    let (state, memory) ←
      if bs < last_bs then do
        let st ← state.truncate bs
        pure (st, (⟨io_full.map (fun t => t.take0 bs),
          trace_full.map (fun tm => ⟨tm.memory.take0 bs, tm.attn_mask.take0 bs⟩)⟩ :
          LatePoolingCodeDecoder.Memory))
      else pure (state, memory)
    let (state, logits_for_t) ←
      LatePoolingCodeDecoder.compute_next_token_logits lstm attend out state memory
        dec_data_slice
    LatePoolingCodeDecoder.forwardSteps lstm attend out P embedded io_full trace_full
      rest (offset + bs) bs state memory (logits_for_t :: acc)

/-- `LatePoolingCodeDecoder.forward` (lines 391-451): teacher-forced
decoding over packed `input_code`, returning the concatenated logits and
the packed target tokens as labels.  `code_embed` is the opaque token
embedding. -/
def LatePoolingCodeDecoder.forward
    (lstm : Tensor → Tensor → Tensor → Tensor × Tensor × Tensor)
    (attend : Tensor → Tensor → Tensor → Tensor)
    (out : Tensor → Tensor)
    (code_embed : Int → List Int)
    (use_trace_memory : Bool) (batch_size pairs_per_example : Nat)
    (io_embed0 : Option Tensor) (trace_memory0 : Option MaskedMemory)
    (input_code output_code : PackedSequencePlus Int) :
    Option (Tensor × List Int) := do
  let embedded := input_code.data.map code_embed
  let state := LatePoolingCodeDecoder.init_state use_trace_memory batch_size
    pairs_per_example
  let memory := LatePoolingCodeDecoder.prepare_memory use_trace_memory io_embed0
    trace_memory0
  let io_full := memory.io.map (fun t => t.indexRows input_code.orig_to_sort)
  let trace_full := memory.trace.map (fun tm =>
    (⟨tm.memory.indexRows input_code.orig_to_sort,
      tm.attn_mask.indexRows input_code.orig_to_sort⟩ : MaskedMemory))
  let logitsList ← LatePoolingCodeDecoder.forwardSteps lstm attend out
    pairs_per_example embedded io_full trace_full input_code.batch_sizes 0 0 state
    ⟨io_full, trace_full⟩ []
  return (concatRows logitsList, output_code.data)

/-- The grid-advance loop of `TraceDecoder.decode_token` (lines 121-125):
each beam whose action id is `< 2` (`<s>`, `</s>`) is skipped, every other
beam's grid is advanced by one application of the Karel simulator, an
opaque collaborator (spec 6) passed as `applyAction`. -/
def advanceFields {G : Type} (applyAction : Nat → G → G)
    (fields : List G) (tokens : List Nat) : List G :=
  List.zipWith (fun g a => if a < 2 then g else applyAction a g) fields tokens

/-- Value-level view of the grid handling in `TraceDecoder.decode_token`
(lines 117-132): with the grid encoder enabled the (copied) grids are
advanced by the simulator; with it disabled `fields = state.field` is
passed through untouched. -/
def decode_token_fields {G : Type} (grid_encoder : Bool)
    (applyAction : Nat → G → G) (fields : List G) (tokens : List Nat) : List G :=
  if grid_encoder then advanceFields applyAction fields tokens else fields

/-- Allocation-level view of the same lines, making the `.copy()` visible:
the store is a heap of grid arrays addressed by index, the state holds an
address.  Enabled: `fields = state.field.copy()` allocates a fresh array,
the loop mutates only the copy, and the returned state holds the fresh
address.  Disabled: `fields = state.field` returns the input address
unchanged (aliasing). -/
def decode_token_grid_refs {G : Type} (grid_encoder : Bool)
    (applyAction : Nat → G → G) (store : List (List G)) (ref : Nat)
    (tokens : List Nat) : List (List G) × Nat :=
  if grid_encoder then
    (store ++ [advanceFields applyAction (store.getD ref []) tokens], store.length)
  else (store, ref)

/-- Modelled from the spec: `karel_modules.set_pop` (not under src/) removes
the value from the collection and reports whether it was present; spec 9
describes these option strings as a closed tagged-variant selection. -/
def setPop (l : List String) (v : String) : Bool × List String :=
  (l.contains v, l.erase v)

/-- The `karel_trace_usage` parsing of `LatePoolingCodeDecoder.__init__`
(lines 347-355), over the already-comma-split option list: pop `memory`
and `state`, let `none` override both, reject leftover options, and
reject `use_trace_state` as unimplemented.  Returns
`(use_trace_memory, use_trace_state)`. -/
def LatePoolingCodeDecoder.initUsage (trace_usage : List String) :
    Except String (Bool × Bool) :=
  let p1 := setPop trace_usage "memory"
  let p2 := setPop p1.2 "state"
  let p3 := setPop p2.2 "none"
  let mem := if p3.1 then false else p1.1
  let st := if p3.1 then false else p2.1
  if ¬ p3.2.isEmpty then .error "AssertionError: unknown karel_trace_usage entry"
  else if st then .error "AssertionError: use_trace_state is not implemented"
  else .ok (mem, st)

/-- Configuration accepted by `IndividualTraceEncoder.__init__`: which input
sources are enabled and the resulting LSTM input width. -/
structure TraceEncCfg where
  interleave : Bool
  hasGrid : Bool
  hasCond : Bool
  hasAction : Bool
  enc_input_size : Nat
deriving DecidableEq, Repr

/-- Grid-encoder selection (lines 204-211); `none_fn` means no grid input. -/
def parseGridEnc (s : String) : Except String Bool :=
  if s = "lgrl" then .ok true
  else if s = "presnet" then .ok true
  else if s = "none" then .ok false
  else .error "ValueError: karel_trace_grid_enc"

/-- Conditional-embedding selection (lines 215-222). -/
def parseCondEnc (s : String) : Except String Bool :=
  if s = "concat" then .ok true
  else if s = "sum" then .ok true
  else if s = "none" then .ok false
  else .error "ValueError: karel_trace_cond_enc"

/-- Action-embedding selection (lines 233-236); any other string leaves
`self.action_embed` unset, so the first later reference raises
`AttributeError`. -/
def parseActionEnc (s : String) : Except String Bool :=
  if s = "emb" then .ok true
  else if s = "none" then .ok false
  else .error "AttributeError: action_embed"

/-- `IndividualTraceEncoder.__init__` (lines 199-267) configuration logic:
parse the three source selections, pop `interleave`/`concat` from the
trace-encoder options (exactly one must be present, nothing may remain),
then in interleaved mode require the action embedding and at least one of
grid/cond (input width 512), and in concatenated mode add up the enabled
source widths and assert the sum is non-zero. -/
def IndividualTraceEncoder.init (grid_enc cond_enc : String)
    (trace_enc_options : List String) (action_enc : String) :
    Except String TraceEncCfg :=
  match parseGridEnc grid_enc with
  | .error e => .error e
  | .ok hasGrid =>
  match parseCondEnc cond_enc with
  | .error e => .error e
  | .ok hasCond =>
    if (setPop trace_enc_options "interleave").1 =
        (setPop (setPop trace_enc_options "interleave").2 "concat").1 then
      .error "AssertionError: interleave xor concat"
    else if ¬ (setPop (setPop trace_enc_options "interleave").2 "concat").2.isEmpty then
      .error "AssertionError: leftover trace_enc options"
    else match parseActionEnc action_enc with
    | .error e => .error e
    | .ok hasAction =>
      if (setPop trace_enc_options "interleave").1 &&
          ! (setPop (setPop trace_enc_options "interleave").2 "concat").1 then
        if ¬ hasAction then .error "AssertionError: interleave requires action embedding"
        else if ¬ hasGrid ∧ ¬ hasCond then
          .error "AssertionError: interleave requires grid or cond input"
        else .ok ⟨true, hasGrid, hasCond, hasAction, 512⟩
      else
        if (if hasAction then 512 else 0) + (if hasGrid then 256 else 0) +
            (if hasCond then 256 else 0) = 0 then
          .error "AssertionError: enc_input_size"
        else .ok ⟨false, hasGrid, hasCond, hasAction,
          (if hasAction then 512 else 0) + (if hasGrid then 256 else 0) +
          (if hasCond then 256 else 0)⟩

/-- Active-batch dimension of the `context` field (its leading dimension),
when present. -/
def LatePoolingCodeDecoder.State.contextActiveDim
    (s : LatePoolingCodeDecoder.State) : Option Nat :=
  s.context.map (fun t => t.shape.headD 0)

/-- Active-batch dimension of `h` (dimension 1, after the layer dim). -/
def LatePoolingCodeDecoder.State.hActiveDim (s : LatePoolingCodeDecoder.State) : Nat :=
  s.h.shape.getD 1 0

/-- The spec's State invariant at batch size `k`: every non-None field's
active-batch dimension equals `k`. -/
def LatePoolingCodeDecoder.State.activeDimsOk (s : LatePoolingCodeDecoder.State)
    (k : Nat) : Prop :=
  s.hActiveDim = k ∧ s.c.shape.getD 1 0 = k ∧
    s.context.all (fun t => t.shape.headD 0 == k) = true

/-- A concrete `TraceDecoderState` for 2 examples x 2 beams: grids of 2
features per row, `num_pairs = 1`, `hidden = 1`, all entries distinct. -/
def exTraceState : TraceDecoderState :=
  ⟨⟨[4, 2], [0, 1, 10, 11, 20, 21, 30, 31]⟩,
   ⟨[2, 4, 1, 1], [100, 101, 102, 103, 110, 111, 112, 113]⟩,
   ⟨[2, 4, 1, 1], [200, 201, 202, 203, 210, 211, 212, 213]⟩⟩

/-- A concrete `LatePoolingCodeDecoder.State` for 2 examples x 2 beams with
`pairs_per_example = 1`, context hidden size 1, all entries distinct. -/
def exLPState : LatePoolingCodeDecoder.State :=
  ⟨1, some ⟨[4, 1, 1], [1000, 1001, 1002, 1003]⟩,
   ⟨[2, 4, 1, 1], [100, 101, 102, 103, 110, 111, 112, 113]⟩,
   ⟨[2, 4, 1, 1], [200, 201, 202, 203, 210, 211, 212, 213]⟩⟩

/-- The state produced by `exLPState.select_for_beams 2 [0,0,1] [0,1,0]`:
`h`/`c` hold the three pairwise-selected rows, while `context` holds the
leading-dimension fancy-indexing result of shape `[2, 3, 2, 1, 1]`. -/
def exLPSelected : LatePoolingCodeDecoder.State :=
  ⟨1, some ⟨[2, 3, 2, 1, 1],
      [1000, 1001, 1000, 1001, 1002, 1003, 1000, 1001, 1002, 1003, 1000, 1001]⟩,
   ⟨[2, 3, 1, 1], [100, 101, 102, 110, 111, 112]⟩,
   ⟨[2, 3, 1, 1], [200, 201, 202, 210, 211, 212]⟩⟩

/-! ### Helper lemmas -/

theorem chunkList_nil (n : Nat) : chunkList n ([] : List α) = [] := by
  have h : (n - 1) / n = 0 := by
    rcases Nat.eq_zero_or_pos n with h | h
    · simp [h]
    · exact Nat.div_eq_of_lt (by omega)
  simp [chunkList, h]

theorem chunkList_cons (n : Nat) (hn : 0 < n) (x : α) (xs : List α) :
    chunkList n (x :: xs) = (x :: xs).take n :: chunkList n ((x :: xs).drop n) := by
  have hcount : ((x :: xs).length + n - 1) / n =
      (((x :: xs).drop n).length + n - 1) / n + 1 := by
    simp only [List.length_cons, List.length_drop]
    rcases le_or_lt n (xs.length + 1) with h | h
    · have h1 : xs.length + 1 + n - 1 = xs.length + n := by omega
      have h2 : xs.length + 1 - n + n - 1 = xs.length + n - n := by omega
      rw [h1, h2, Nat.add_div_right _ hn, Nat.add_sub_cancel]
    · have h1 : xs.length + 1 - n = 0 := by omega
      have h2 : xs.length + 1 + n - 1 = xs.length + n := by omega
      rw [h1, h2, Nat.add_div_right _ hn, Nat.div_eq_of_lt (by omega),
        Nat.zero_add, Nat.div_eq_of_lt (by omega)]
  unfold chunkList
  rw [hcount, List.range_succ_eq_map, List.map_cons, List.map_map]
  refine congrArg₂ _ (by simp) ?_
  refine List.map_congr_left fun i _ => ?_
  simp only [Function.comp_apply, List.drop_drop]
  have hsm : i.succ * n = n + i * n := by rw [Nat.succ_mul]; omega
  rw [hsm]

theorem flatten_chunkList (n : Nat) (hn : 0 < n) (l : List α) :
    (chunkList n l).flatten = l := by
  suffices h : ∀ (N : Nat) (l : List α), l.length ≤ N → (chunkList n l).flatten = l from
    h l.length l le_rfl
  intro N
  induction N with
  | zero =>
    intro l hl
    have : l = [] := List.length_eq_zero.mp (by omega)
    subst this
    simp [chunkList_nil]
  | succ N ih =>
    intro l hl
    cases l with
    | nil => simp [chunkList_nil]
    | cons x xs =>
      have hl' : xs.length + 1 ≤ N + 1 := by simpa using hl
      rw [chunkList_cons n hn, List.flatten_cons,
        ih _ (by simp only [List.length_drop, List.length_cons]; omega),
        List.take_append_drop]

theorem chunkList_one (l : List α) : chunkList 1 l = l.map (fun a => [a]) := by
  induction l with
  | nil => simp [chunkList_nil]
  | cons x xs ih =>
    rw [chunkList_cons 1 (by omega)]
    simpa using ih

theorem getD_vecMax (a b : List Int) (d : Nat) (ha : d < a.length) (hb : d < b.length) :
    (vecMax a b).getD d 0 = max (a.getD d 0) (b.getD d 0) := by
  have hl : d < (List.zipWith max a b).length := by
    simp only [List.length_zipWith]
    omega
  simp only [vecMax, List.getD_eq_getElem?_getD, List.getElem?_eq_getElem hl,
    List.getElem?_eq_getElem ha, List.getElem?_eq_getElem hb, List.getElem_zipWith,
    Option.getD_some]

theorem length_vecMax (a b : List Int) : (vecMax a b).length = min a.length b.length :=
  List.length_zipWith _ _ _

theorem foldl_vecMax_spec (D d : Nat) (hd : d < D) :
    ∀ (rs : List (List Int)) (r : List Int), r.length = D → (∀ x ∈ rs, x.length = D) →
      (rs.foldl vecMax r).length = D ∧
      r.getD d 0 ≤ (rs.foldl vecMax r).getD d 0 ∧
      (∀ x ∈ rs, x.getD d 0 ≤ (rs.foldl vecMax r).getD d 0) ∧
      ((rs.foldl vecMax r).getD d 0 = r.getD d 0 ∨
        ∃ x ∈ rs, (rs.foldl vecMax r).getD d 0 = x.getD d 0) := by
  intro rs
  induction rs with
  | nil =>
    intro r hr _
    exact ⟨hr, le_rfl, by simp, Or.inl rfl⟩
  | cons y ys ih =>
    intro r hr hall
    have hy : y.length = D := hall y (List.mem_cons_self _ _)
    have hv : (vecMax r y).length = D := by rw [length_vecMax, hr, hy, min_self]
    obtain ⟨hL, h1, h2, h3⟩ := ih (vecMax r y)
      hv (fun x hx => hall x (List.mem_cons_of_mem _ hx))
    have hmax : (vecMax r y).getD d 0 = max (r.getD d 0) (y.getD d 0) :=
      getD_vecMax r y d (by omega) (by omega)
    simp only [List.foldl_cons]
    refine ⟨hL, ?_, ?_, ?_⟩
    · calc r.getD d 0 ≤ max (r.getD d 0) (y.getD d 0) := le_max_left _ _
        _ = (vecMax r y).getD d 0 := hmax.symm
        _ ≤ (ys.foldl vecMax (vecMax r y)).getD d 0 := h1
    · intro x hx
      rcases List.mem_cons.mp hx with rfl | hx'
      · calc x.getD d 0 ≤ max (r.getD d 0) (x.getD d 0) := le_max_right _ _
          _ = (vecMax r x).getD d 0 := hmax.symm
          _ ≤ (ys.foldl vecMax (vecMax r x)).getD d 0 := h1
      · exact h2 x hx'
    · rcases h3 with heq | ⟨x, hx, heq⟩
      · rw [heq, hmax]
        rcases max_choice (r.getD d 0) (y.getD d 0) with h | h
        · exact Or.inl h
        · exact Or.inr ⟨y, List.mem_cons_self _ _, h⟩
      · exact Or.inr ⟨x, List.mem_cons_of_mem _ hx, heq⟩

theorem maxPoolRows_one (t : Tensor) (M D : Nat) (ht : t.shape = [M, D]) (hD : 0 < D) :
    maxPoolRows 1 t = some ⟨[M, D], t.data⟩ := by
  have hhead : t.shape.headD 0 = M := by rw [ht]; rfl
  have hlast : t.shape.getLastD 0 = D := by rw [ht]; rfl
  have hcomp : (vecMaxGroup ∘ fun a => [a]) = (id : List Int → List Int) := by
    funext r
    rfl
  unfold maxPoolRows
  rw [hhead, hlast, if_neg (by simp [Nat.one_dvd]), chunkList_one, List.map_map,
    hcomp, List.map_id, flatten_chunkList D hD, Nat.div_one]

/-! ### Claim theorems -/

/-- C10: `action_to_id` and `id_to_action` are mutually inverse between the
seven action tokens and the ids 0..6 (every entry of each map round-trips
through the other, and every id below 7 is mapped), and the ids treated as
world-step no-ops by the `action_id < 2` guard of
`TraceDecoder.decode_token` (embedded as `advanceFields`) are exactly the
ids of `<s>` and `</s>`. -/
theorem c10_action_vocab_inverse_and_noop_ids :
    (∀ p ∈ action_to_id, id_to_action.lookup p.2 = some p.1) ∧
    (∀ p ∈ id_to_action, action_to_id.lookup p.2 = some p.1) ∧
    (∀ i, i < 7 → (id_to_action.lookup i).isSome = true) ∧
    (∀ p ∈ action_to_id, (p.2 < 2 ↔ p.1 = "<s>" ∨ p.1 = "</s>")) ∧
    (∀ p ∈ action_to_id,
      (advanceFields (fun _ g => g + 1) [(0 : Int)] [p.2] = [0] ↔
        p.1 = "<s>" ∨ p.1 = "</s>")) := by
  decide

/-- C10 witness: the theorem instantiated at the concrete entries
`(move, 2)` and `(</s>, 1)`. -/
theorem c10_action_vocab_inverse_and_noop_ids_witness :
    id_to_action.lookup 2 = some "move" ∧
    action_to_id.lookup "</s>" = some 1 ∧
    (advanceFields (fun _ g => g + 1) [(0 : Int)] [1] = [0] ↔
      "</s>" = "<s>" ∨ "</s>" = "</s>") := by
  refine ⟨c10_action_vocab_inverse_and_noop_ids.1 ("move", 2) (by decide),
    c10_action_vocab_inverse_and_noop_ids.2.1 (1, "</s>") (by decide),
    c10_action_vocab_inverse_and_noop_ids.2.2.2.2 ("</s>", 1) (by decide)⟩

/-- C1: on the spec's own example index set `[[0,0,1],[0,1,0]]` over a
2-example x 2-beam state, `TraceDecoderState.select_for_beams` returns
exactly the K = 3 rows `(0,0), (0,1), (1,0)` of every field, in column
order, as the claim states; but `LatePoolingCodeDecoder.State.select_for_beams`
(which omits the `tuple(...)` around the index array on the `context` line)
returns a `context` of shape `[2, 3, 2, 1, 1]` — the whole example slice
selected per index-array entry — and not the claimed K-row pairwise
selection `[1000, 1001, 1002]` of shape `[3, 1, 1]`. -/
theorem c1_select_for_beams_eval :
    exTraceState.select_for_beams 2 [0, 0, 1] [0, 1, 0] =
      some ⟨⟨[3, 2], [0, 1, 10, 11, 20, 21]⟩,
            ⟨[2, 3, 1, 1], [100, 101, 102, 110, 111, 112]⟩,
            ⟨[2, 3, 1, 1], [200, 201, 202, 210, 211, 212]⟩⟩ ∧
    exLPState.select_for_beams 2 [0, 0, 1] [0, 1, 0] = some exLPSelected ∧
    (exLPState.select_for_beams 2 [0, 0, 1] [0, 1, 0]).bind
        LatePoolingCodeDecoder.State.context ≠
      some ⟨[3, 1, 1], [1000, 1001, 1002]⟩ := by
  decide

/-- C2: `truncate` crashes (`TypeError: None[:k]`) on any state whose
`context` is `None`, i.e. exactly the states `init_state` builds when trace
memory is disabled — refuting the claim for those states — while on a
trace-memory state it does return the first `k` active rows of every field
(`context[:1]` of shape `[1,1,512]`, `h[:, :1]`/`c[:, :1]` of shape
`[2,1,1,256]`) with `pairs_per_example` unchanged. -/
theorem c2_truncate_eval :
    (LatePoolingCodeDecoder.init_state false 2 1).truncate 1 = none ∧
    ((LatePoolingCodeDecoder.init_state true 2 1).truncate 1).map
        (fun s => (s.pairs_per_example, s.context.map Tensor.shape, s.h.shape, s.c.shape)) =
      some (1, some [1, 1, 512], [2, 1, 1, 256], [2, 1, 1, 256]) := by
  decide

/-- C5: a teacher-forced `forward` call in the trace-memory-disabled
configuration, on two sequences of lengths 2 and 1 (`batch_sizes = [2, 1]`),
aborts: at the second timestep the active batch shrinks from 2 to 1 and
`state.truncate` evaluates `None[:1]`, raising `TypeError` before any
logits are returned (the opaque nets are instantiated with concrete
functions; the crash happens independently of them). -/
theorem c5_forward_crashes_without_trace_memory :
    LatePoolingCodeDecoder.forward (fun i h c => (i, h, c)) (fun q _ _ => q)
      (fun t => t) (fun tok => [tok]) false 2 1 none none
      ⟨[10, 20, 11], [2, 1], [0, 1]⟩ ⟨[30, 40, 31], [2, 1], [0, 1]⟩ = none := by
  decide

/-- C7: the state produced by
`LatePoolingCodeDecoder.State.select_for_beams` on a non-`None` context
violates the equal-active-dimension invariant: for K = 3 surviving beams
the `h`/`c` active dimension is 3 but the `context` leading dimension is 2
(the index-array row count), so `activeDimsOk 3` fails while
`pairs_per_example` is carried through unchanged. -/
theorem c7_select_for_beams_breaks_dim_invariant :
    exLPState.select_for_beams 2 [0, 0, 1] [0, 1, 0] = some exLPSelected ∧
    exLPSelected.hActiveDim = 3 ∧
    exLPSelected.pairs_per_example = exLPState.pairs_per_example ∧
    exLPSelected.contextActiveDim = some 2 ∧
    ¬ exLPSelected.activeDimsOk 3 := by
  refine ⟨by decide, by decide, by decide, by decide, ?_⟩
  unfold LatePoolingCodeDecoder.State.activeDimsOk
  decide

/-- C9: splitting `karel_trace_usage` and popping the mode flags, the
`state` mode is rejected by the `assert not self.use_trace_state` guard at
construction time, while `memory` and `none` are accepted (returning
`(use_trace_memory, use_trace_state)`). -/
theorem c9_trace_usage_state_mode_rejected :
    LatePoolingCodeDecoder.initUsage ["state"] =
      .error "AssertionError: use_trace_state is not implemented" ∧
    LatePoolingCodeDecoder.initUsage ["memory"] = .ok (true, false) ∧
    LatePoolingCodeDecoder.initUsage ["none"] = .ok (false, false) := by
  exact ⟨rfl, rfl, rfl⟩

/-- C3: in every configuration a beam whose input token is the start
marker (id 0) or the end marker (id 1) keeps its grid bit-for-bit
unchanged by `decode_token`, and — in the grid-encoder-enabled
configuration, the one in which decode_token invokes the simulator
(spec 4.5 step 1) — a beam with any other action token has its grid
advanced by exactly one application of that action's simulator
semantics. -/
theorem c3_markers_noop_others_advance {G : Type} (grid_encoder : Bool)
    (applyAction : Nat → G → G) (fields : List G) (tokens : List Nat)
    (j a : Nat) (ha : tokens.get? j = some a) :
    (a < 2 →
      (decode_token_fields grid_encoder applyAction fields tokens).get? j =
        fields.get? j) ∧
    (grid_encoder = true → 2 ≤ a →
      (decode_token_fields grid_encoder applyAction fields tokens).get? j =
        (fields.get? j).map (applyAction a)) := by
  constructor
  · intro ha2
    cases grid_encoder with
    | false => simp [decode_token_fields]
    | true =>
      simp only [decode_token_fields, if_true, advanceFields]
      rw [List.get?_zipWith', ha]
      cases hf : fields.get? j with
      | none => simp
      | some g => simp [ha2]
  · intro hg ha2
    subst hg
    simp only [decode_token_fields, if_true, advanceFields]
    rw [List.get?_zipWith', ha]
    cases hf : fields.get? j with
    | none => simp
    | some g => simp [Nat.not_lt.mpr ha2]

/-- C3 witness: with the grid encoder enabled, simulator
`applyAction a g = 10*g + a`, grids `[5, 6]` and tokens `[1, 2]`: beam 0
(token `</s>` = 1) keeps grid 5, beam 1 (token `move` = 2) steps to 62. -/
theorem c3_markers_noop_others_advance_witness :
    (decode_token_fields true (fun a g => 10 * g + a) [5, 6] [1, 2]).get? 0 =
      some 5 ∧
    (decode_token_fields true (fun a g => 10 * g + a) [5, 6] [1, 2]).get? 1 =
      some 62 := by
  have h0 := (c3_markers_noop_others_advance true (fun a g => 10 * g + a)
    [5, 6] [1, 2] 0 1 rfl).1 (by decide)
  have h1 := (c3_markers_noop_others_advance true (fun a g => 10 * g + a)
    [5, 6] [1, 2] 1 2 rfl).2 rfl (by decide)
  exact ⟨h0.trans rfl, h1.trans rfl⟩

/-- C4 counterexample: with the grid encoder disabled, `decode_token`
returns the very same grid array it received (`fields = state.field`, no
copy): on store `[[5, 6]]` with the input state holding address 0 and a
non-marker token, the returned state still holds address 0 — the grid
storage is shared with the input state, refuting "a fresh copy ... in
every configuration including when the grid encoder is disabled". -/
theorem c4_disabled_config_aliases_grid :
    decode_token_grid_refs (G := Nat) false (fun a g => g + a) [[5, 6]] 0 [2] =
      ([[5, 6]], 0) := by
  decide

/-- C4 (amended): `decode_token` never mutates the input state's grid
array; when the grid encoder is enabled the returned state's grid storage
is a fresh array (a new address, distinct from every pre-existing one)
holding the advanced copy, and all previously stored arrays are unchanged;
when the grid encoder is disabled the grids are passed through untouched
and the returned state aliases the input's grid array. -/
theorem c4_amended_grid_copy {G : Type} (applyAction : Nat → G → G)
    (grid_encoder : Bool) (store : List (List G)) (ref : Nat)
    (tokens : List Nat) (href : ref < store.length) :
    (grid_encoder = true →
      (decode_token_grid_refs grid_encoder applyAction store ref tokens).2 =
        store.length ∧
      (decode_token_grid_refs grid_encoder applyAction store ref tokens).2 ≠ ref ∧
      (∀ i, i < store.length →
        (decode_token_grid_refs grid_encoder applyAction store ref tokens).1.get? i =
          store.get? i) ∧
      (decode_token_grid_refs grid_encoder applyAction store ref tokens).1.get?
          store.length =
        some (advanceFields applyAction (store.getD ref []) tokens)) ∧
    (grid_encoder = false →
      decode_token_grid_refs grid_encoder applyAction store ref tokens =
        (store, ref)) := by
  constructor
  · intro hg
    subst hg
    have hd : decode_token_grid_refs true applyAction store ref tokens =
        (store ++ [advanceFields applyAction (store.getD ref []) tokens],
         store.length) := by
      simp [decode_token_grid_refs]
    rw [hd]
    exact ⟨rfl, by omega, fun i hi => List.get?_append hi,
      List.get?_concat_length _ _⟩
  · intro hg
    subst hg
    simp [decode_token_grid_refs]

/-- C4 witness: enabled configuration on store `[[7]]`, state at address 0,
token `move`: the returned address is the fresh address 1, distinct from
the input's address 0; the disabled configuration returns the input
unchanged. -/
theorem c4_amended_grid_copy_witness :
    (decode_token_grid_refs (G := Nat) true (fun a g => g + a) [[7]] 0 [2]).2 = 1 ∧
    (decode_token_grid_refs (G := Nat) true (fun a g => g + a) [[7]] 0 [2]).2 ≠ 0 ∧
    decode_token_grid_refs (G := Nat) false (fun a g => g + a) [[7]] 0 [2] =
      ([[7]], 0) := by
  have h := c4_amended_grid_copy (G := Nat) (fun a g => g + a) true [[7]] 0 [2]
    (by decide)
  have h2 := c4_amended_grid_copy (G := Nat) (fun a g => g + a) false [[7]] 0 [2]
    (by decide)
  exact ⟨(h.1 rfl).1, (h.1 rfl).2.1, h2.2 rfl⟩

/-- C6 counterexample: with zero conditioning pairs the pooling step is
not the identity — `view(-1, 0, D)` / `max` over the empty pairs axis
fails (modelled as `none`), so `poolDecision 0` never returns its input
unchanged. -/
theorem c6_zero_pairs_not_identity :
    poolDecision 0 none ⟨[1, 1], [5]⟩ ≠ some ⟨[1, 1], [5]⟩ := by
  decide

/-- C6 (amended): the per-beam decision vector is obtained by
concatenating the attention context (when present) with the recurrent
output and reducing groups of `pairs_per_example` consecutive rows by
elementwise maximum — each pooled component is an upper bound of and is
attained by the group's components — and when `pairs_per_example = 1` the
pooling returns the single pair's concatenated vector unchanged.  Zero
pairs fails rather than degenerating to identity (see the
counterexample). -/
theorem c6_pooling_max_and_single_pair :
    (∀ (g : List (List Int)) (D d : Nat), g ≠ [] → (∀ x ∈ g, x.length = D) →
      d < D →
      (∀ x ∈ g, x.getD d 0 ≤ (vecMaxGroup g).getD d 0) ∧
      (∃ x ∈ g, (vecMaxGroup g).getD d 0 = x.getD d 0)) ∧
    (∀ (ctx : Option Tensor) (dout emb : Tensor) (M D : Nat),
      maybe_concat [ctx, some dout] = some emb → emb.shape = [M, D] → 0 < D →
      poolDecision 1 ctx dout = some ⟨[M, D], emb.data⟩) := by
  constructor
  · intro g D d hne hlen hd
    cases g with
    | nil => exact absurd rfl hne
    | cons r rs =>
      have hr : r.length = D := hlen r (List.mem_cons_self _ _)
      obtain ⟨hL, h1, h2, h3⟩ := foldl_vecMax_spec D d hd rs r hr
        (fun x hx => hlen x (List.mem_cons_of_mem _ hx))
      refine ⟨?_, ?_⟩
      · intro x hx
        rcases List.mem_cons.mp hx with rfl | hx'
        · exact h1
        · exact h2 x hx'
      · rcases h3 with heq | ⟨x, hx, heq⟩
        · exact ⟨r, List.mem_cons_self _ _, heq⟩
        · exact ⟨x, List.mem_cons_of_mem _ hx, heq⟩
  · intro ctx dout emb M D hcat hshape hD
    unfold poolDecision
    rw [hcat]
    show maxPoolRows 1 emb = some ⟨[M, D], emb.data⟩
    exact maxPoolRows_one emb M D hshape hD

/-- C6 witness: for the pair group `[[3,5],[4,1]]` the pooled component 0
bounds the first row's component, and with a single pair the pooled
decision equals the input rows unchanged. -/
theorem c6_pooling_max_and_single_pair_witness :
    ([3, 5] : List Int).getD 0 0 ≤ (vecMaxGroup [[3, 5], [4, 1]]).getD 0 0 ∧
    poolDecision 1 none ⟨[2, 1], [8, 9]⟩ = some ⟨[2, 1], [8, 9]⟩ := by
  refine ⟨(c6_pooling_max_and_single_pair.1 [[3, 5], [4, 1]] 2 0 (by decide)
    (by decide) (by decide)).1 [3, 5] (by decide), ?_⟩
  exact c6_pooling_max_and_single_pair.2 none ⟨[2, 1], [8, 9]⟩ ⟨[2, 1], [8, 9]⟩ 2 1
    rfl rfl (by decide)

/-- C8: constructing the trace encoder with the grid encoding, conditional
embedding and action embedding all set to `none` in the non-interleaved
mode fails at construction time with the `enc_input_size` assertion (the
spec's ConfigurationError), and every accepted configuration has a
positive encoder input width and at least one enabled input source. -/
theorem c8_no_input_source_rejected :
    IndividualTraceEncoder.init "none" "none" ["concat"] "none" =
      .error "AssertionError: enc_input_size" ∧
    (∀ (g c : String) (opts : List String) (a : String) (cfg : TraceEncCfg),
      IndividualTraceEncoder.init g c opts a = .ok cfg →
      0 < cfg.enc_input_size ∧
        (cfg.hasGrid = true ∨ cfg.hasCond = true ∨ cfg.hasAction = true)) := by
  refine ⟨rfl, ?_⟩
  intro g c opts a cfg h
  unfold IndividualTraceEncoder.init at h
  repeat' split at h
  all_goals first
    | exact Except.noConfusion h
    | (simp only [Except.ok.injEq] at h
       subst h
       refine ⟨?_, ?_⟩ <;> (simp_all; try tauto))

/-- C8 witness: the accepted configuration `grid = lgrl`, everything else
`none`, in concat mode, has input width 256 > 0 and the grid source
enabled. -/
theorem c8_no_input_source_rejected_witness :
    0 < (256 : Nat) ∧
    ((true : Bool) = true ∨ (false : Bool) = true ∨ (false : Bool) = true) := by
  have h := c8_no_input_source_rejected.2 "lgrl" "none" ["concat"] "none"
    ⟨false, true, false, false, 256⟩ (by rfl)
  exact h
